import Mathlib

/-!
Verification of the chrome-extension-summariser repository.

The repository's core logic lives in `src/background.js`, which contains the
background service worker followed by a shared utilities section.  Both
sections define `validateText`, `sanitizeText`, `formatErrorMessage` and
`parseApiResponse`; the utilities section additionally defines
`validateApiKey`.  The background worker's `handleSummarization` orchestrates
validation, sanitization, prompt construction, the remote call and
persistence of the last summary.

JavaScript strings are modelled as Lean `String` (a list of characters), the
possibly-absent / non-string inputs as `Option String` (`none` stands for
`null` / `undefined` / a non-string value), fallible code as `Except`, and
the Chrome storage plus the single network round trip as explicit state
passing with a call counter.
-/

set_option maxRecDepth 20000

namespace Summariser

/-! ### Character classes and basic string helpers -/

/-- The characters matched by the JavaScript regex class `\s`
(whitespace). -/
def isWsChar (c : Char) : Bool :=
  c == ' ' || c == '\t' || c == '\r' || c == '\n'

/-- The characters matched by the JavaScript regex class `[^\S\n]`
(whitespace other than newline), used by the background worker's
`sanitizeText`. -/
def isNonNlWs (c : Char) : Bool :=
  c == ' ' || c == '\t' || c == '\r'

/-- List-level prefix test, modelling JavaScript `String.startsWith`. -/
def isPrefixL : List Char → List Char → Bool
  | [], _ => true
  | _ :: _, [] => false
  | a :: as, b :: bs => a == b && isPrefixL as bs

/-- `jsStartsWith s pre` models `s.startsWith(pre)`. -/
def jsStartsWith (s pre : String) : Bool :=
  isPrefixL pre.data s.data

/-- Substring containment on character lists, modelling
JavaScript `String.includes`. -/
def containsL (pat : List Char) : List Char → Bool
  | [] => isPrefixL pat []
  | c :: cs => isPrefixL pat (c :: cs) || containsL pat cs

/-- `strContains s pat` models `s.includes(pat)`. -/
def strContains (s pat : String) : Bool :=
  containsL pat.data s.data

/-- Drop trailing whitespace characters. -/
def dropTrailWs : List Char → List Char
  | [] => []
  | c :: cs =>
    match dropTrailWs cs with
    | [] => if isWsChar c then [] else [c]
    | d :: ds => c :: d :: ds

/-- JavaScript `String.trim` on character lists: remove leading and
trailing whitespace. -/
def jsTrimL (l : List Char) : List Char :=
  dropTrailWs (l.dropWhile isWsChar)

/-- JavaScript `String.trim` on strings. -/
def jsTrimStr (s : String) : String :=
  ⟨jsTrimL s.data⟩

/-! ### Validator (`validateText`, `validateApiKey`) -/

/-- The `{ valid, error }` object returned by `validateText`. -/
structure ValidationResult where
  valid : Bool
  error : Option String
deriving DecidableEq

/-- `validateText` from the background worker (`src/background.js`):
rejects falsy / non-string input, then checks the trimmed length against
the bounds 10 and 10000. -/
def validateText : Option String → ValidationResult
  | none => ⟨false, some "No text provided"⟩
  | some t =>
    if t = "" then ⟨false, some "No text provided"⟩
    else if (jsTrimL t.data).length < 10 then
      ⟨false, some "Selected text is too short. Please select at least 10 characters."⟩
    else if (jsTrimL t.data).length > 10000 then
      ⟨false, some "Selected text is too long. Please select less than 10,000 characters."⟩
    else ⟨true, none⟩

/-- `validateApiKey` from the utilities section: a key is valid iff it is a
string, starts with `"sk-"` and has length strictly greater than 20. -/
def validateApiKey : Option String → Bool
  | none => false
  | some s =>
    if s = "" then false
    else jsStartsWith s "sk-" && decide (20 < s.data.length)

/-! ### Error classifier (`formatErrorMessage`, utilities section) -/

/-- The possible inputs of `formatErrorMessage`: a plain string, an `Error`
object carrying a message, or any other value. -/
inductive ErrInput where
  | str (s : String)
  | err (message : String)
  | other
deriving DecidableEq

/-- `formatErrorMessage` from the utilities section: plain strings pass
through; `Error` messages are matched against the substrings `"401"`,
`"429"`, `"500"` in that order; otherwise the error's message is returned,
with a fixed fallback for an empty message or a non-`Error` value. -/
def formatErrorMessage : ErrInput → String
  | .str s => s
  | .err m =>
    if strContains m "401" then "Invalid API key. Please check your OpenAI API key."
    else if strContains m "429" then "Rate limit exceeded. Please try again later."
    else if strContains m "500" then "OpenAI service error. Please try again later."
    else if m = "" then "Failed to generate summary. Please check your API key and try again."
    else m
  | .other => "Failed to generate summary. Please check your API key and try again."

/-! ### Response parser (`parseApiResponse`, background worker) -/

/-- The `message` object of a choice: `content` is `none` when the field is
absent and `some ""` when it is the empty string (both falsy in JS). -/
structure ApiMessage where
  content : Option String
deriving DecidableEq

/-- One element of the `choices` array; `message` may be absent. -/
structure ApiChoice where
  message : Option ApiMessage
deriving DecidableEq

/-- The JSON body of a successful remote response; the `choices` field may
be absent. -/
structure ApiResponse where
  choices : Option (List ApiChoice)
deriving DecidableEq

/-- `parseApiResponse` from the background worker: rejects a missing
response object, a missing or empty `choices` array, a missing `message`,
and a falsy `content`; on success returns `content` trimmed. -/
def parseApiResponse : Option ApiResponse → Except String String
  | none => .error "Invalid response from API"
  | some resp =>
    match resp.choices with
    | none => .error "Invalid response from API"
    | some [] => .error "Invalid response from API"
    | some (c :: _) =>
      match c.message with
      | none => .error "Invalid response from API"
      | some m =>
        match m.content with
        | none => .error "Invalid response from API"
        | some s => if s = "" then .error "Invalid response from API" else .ok (jsTrimStr s)

/-- Specification-side path extraction: the content string found at
`choices[0].message.content`, if any. -/
def contentOf (r : Option ApiResponse) : Option String :=
  match r with
  | none => none
  | some resp =>
    match resp.choices with
    | none => none
    | some [] => none
    | some (c :: _) =>
      match c.message with
      | none => none
      | some m => m.content

/-! ### Sanitizer (`sanitizeText`, both versions) -/

/-- One global-replace pass of `replace(<run of p>+, ' ')`: every maximal
run of characters satisfying `p` becomes a single space.  The boolean flag
records whether the previous character belonged to a run. -/
def collapseRuns (p : Char → Bool) : Bool → List Char → List Char
  | _, [] => []
  | inRun, c :: cs =>
    if p c then
      if inRun then collapseRuns p true cs
      else ' ' :: collapseRuns p true cs
    else c :: collapseRuns p false cs

/-- One global-replace pass of `replace(/\n{3,}/, "\n\n")`: within each
maximal run of newlines only the first two are kept.  `k` counts the
newlines already kept in the current run. -/
def collapseNlAux : Nat → List Char → List Char
  | _, [] => []
  | k, c :: cs =>
    if c = '\n' then
      if k < 2 then '\n' :: collapseNlAux (k + 1) cs
      else collapseNlAux k cs
    else c :: collapseNlAux 0 cs

/-- The background worker's `sanitizeText` pipeline on character lists:
trim, collapse runs of non-newline whitespace, collapse 3+ newlines. -/
def pipeBg (l : List Char) : List Char :=
  collapseNlAux 0 (collapseRuns isNonNlWs false (jsTrimL l))

/-- The utilities section's `sanitizeText` pipeline on character lists:
trim, collapse runs of any whitespace, collapse 3+ newlines. -/
def pipeUtils (l : List Char) : List Char :=
  collapseNlAux 0 (collapseRuns isWsChar false (jsTrimL l))

/-- `sanitizeText` from the background worker (string level; the falsy
guard returns `""` for the empty string). -/
def sanitizeStrBg (s : String) : String :=
  if s = "" then "" else ⟨pipeBg s.data⟩

/-- `sanitizeText` from the utilities section (string level). -/
def sanitizeStrUtils (s : String) : String :=
  if s = "" then "" else ⟨pipeUtils s.data⟩

/-- `sanitizeText` from the background worker on a possibly-absent input
(`none` models `null` / `undefined`, which are falsy). -/
def sanitizeTextBg : Option String → String
  | none => ""
  | some s => sanitizeStrBg s

/-- `sanitizeText` from the utilities section on a possibly-absent input. -/
def sanitizeTextUtils : Option String → String
  | none => ""
  | some s => sanitizeStrUtils s

/-! ### Prompt builder and remote call -/

/-- `createSummaryPrompt`: fixed instruction, blank line, then the text. -/
def createSummaryPrompt (text : String) : String :=
  "Please provide a concise summary of the following text in 2-3 sentences:\n\n" ++ text

/-- The outcome of the single `fetch` to the remote endpoint: the promise
rejects, or an HTTP response arrives with a status and (for non-success)
the error message parsed from the body, or a success body arrives. -/
inductive NetOutcome where
  | fetchFailed
  | http (status : Nat) (errMsg : Option String)
  | ok (body : Option ApiResponse)
deriving DecidableEq

/-- `callOpenAI` from the background worker, given the outcome of its one
`fetch`: a rejected fetch becomes the network-error message; a non-success
status is classified (401 / 429 / 500 / other with the body's message or an
`API error` fallback); a success body is parsed. -/
def callOpenAI (outcome : NetOutcome) : Except String String :=
  match outcome with
  | .fetchFailed => .error "Network error. Please check your internet connection."
  | .http status errMsg =>
    if status = 401 then .error "Invalid API key. Please check your OpenAI API key."
    else if status = 429 then .error "Rate limit exceeded. Please try again later."
    else if status = 500 then .error "OpenAI service error. Please try again later."
    else
      .error (match errMsg with
        | some m => if m = "" then "API error: " ++ toString status else m
        | none => "API error: " ++ toString status)
  | .ok body => parseApiResponse body

/-! ### Orchestrator (`handleSummarization`) -/

/-- The persisted `chrome.storage.local` keys the orchestrator touches. -/
structure Storage where
  last_summary : Option String
  last_summary_time : Option Nat
deriving DecidableEq

/-- The background worker's credential guard
`!apiKey || !apiKey.startsWith('sk-')`: rejects a missing or empty key and
any key not starting with `"sk-"` (no length check). -/
def apiKeyRejected : Option String → Bool
  | none => true
  | some s => s = "" || !(jsStartsWith s "sk-")

/-- `handleSummarization` from the background worker.  `net` maps the
prompt sent to the remote endpoint to the outcome of the one `fetch`; the
result is the thrown-or-returned value, the storage after the run, and the
number of network calls performed. -/
def handleSummarization (text apiKey : Option String) (net : String → NetOutcome)
    (st : Storage) (now : Nat) : Except String String × Storage × Nat :=
  if apiKeyRejected apiKey then (.error "Invalid API key", st, 0)
  else
    let v := validateText text
    if v.valid = false then (.error (v.error.getD ""), st, 0)
    else
      match callOpenAI (net (createSummaryPrompt (sanitizeTextBg text))) with
      | .error e => (.error e, st, 1)
      | .ok summary => (.ok summary, ⟨some summary, some now⟩, 1)

/-! ### Normal-form predicates for the sanitizer -/

/-- The first character, if any, is not whitespace. -/
def headNotWs : List Char → Bool
  | [] => true
  | c :: _ => !(isWsChar c)

/-- The last character, if any, is not whitespace. -/
def noTrailWs : List Char → Bool
  | [] => true
  | [c] => !(isWsChar c)
  | _ :: c :: cs => noTrailWs (c :: cs)

/-- Fixed-point predicate of `collapseRuns p`: every `p`-character is a
single space not preceded by another `p`-character. -/
def wsOk (p : Char → Bool) : Bool → List Char → Bool
  | _, [] => true
  | inRun, c :: cs =>
    if p c then !inRun && c == ' ' && wsOk p true cs
    else wsOk p false cs

/-- Fixed-point predicate of `collapseNlAux`: no newline appears after two
consecutive newlines. -/
def nlOk : Nat → List Char → Bool
  | _, [] => true
  | k, c :: cs =>
    if c = '\n' then decide (k < 2) && nlOk (k + 1) cs
    else nlOk 0 cs

/-- Whether the list contains a newline. -/
def hasNl : List Char → Bool
  | [] => false
  | c :: cs => c == '\n' || hasNl cs

/-- The normal form produced by the background sanitizer: trimmed at both
ends, non-newline whitespace only as isolated single spaces, and at most
two consecutive newlines. -/
def isNormalBg (l : List Char) : Bool :=
  headNotWs l && noTrailWs l && wsOk isNonNlWs false l && nlOk 0 l

theorem isNonNlWs_ws {c : Char} (h : isNonNlWs c = true) : isWsChar c = true := by
  simp only [isNonNlWs, Bool.or_eq_true, beq_iff_eq] at h
  simp only [isWsChar, Bool.or_eq_true, beq_iff_eq]
  rcases h with (h | h) | h <;> simp [h]

theorem isNonNlWs_nl : isNonNlWs '\n' = false := by decide

theorem not_ws_not_nl {c : Char} (h : isWsChar c = false) : c ≠ '\n' := by
  intro he
  subst he
  simp [isWsChar] at h

/-! ### Fixed-point lemmas for `collapseRuns` -/

theorem wsOk_collapseRuns (p : Char → Bool) (hp : p ' ' = true) :
    ∀ (l : List Char) (b : Bool), wsOk p b (collapseRuns p b l) = true := by
  intro l
  induction l with
  | nil => intro b; rfl
  | cons c cs ih =>
    intro b
    by_cases hc : p c = true
    · cases b with
      | true => simpa [collapseRuns, hc] using ih true
      | false => simp [collapseRuns, hc, wsOk, hp, ih true]
    · simp only [Bool.not_eq_true] at hc
      simp [collapseRuns, hc, wsOk, ih false]

theorem collapseRuns_of_wsOk (p : Char → Bool) :
    ∀ (l : List Char) (b : Bool), wsOk p b l = true → collapseRuns p b l = l := by
  intro l
  induction l with
  | nil => intro b _; rfl
  | cons c cs ih =>
    intro b h
    by_cases hc : p c = true
    · simp only [wsOk, hc, if_pos, Bool.and_eq_true, Bool.not_eq_true', beq_iff_eq] at h
      obtain ⟨⟨hb, hsp⟩, hrest⟩ := h
      subst hb
      subst hsp
      simp [collapseRuns, hc, ih true hrest]
    · simp only [Bool.not_eq_true] at hc
      simp only [wsOk, hc, Bool.false_eq_true, if_neg, ite_false] at h
      simp [collapseRuns, hc, ih false h]

/-! ### Fixed-point lemmas for `collapseNlAux` -/

theorem nlOk_collapseNlAux :
    ∀ (l : List Char) (k : Nat), nlOk k (collapseNlAux k l) = true := by
  intro l
  induction l with
  | nil => intro k; rfl
  | cons c cs ih =>
    intro k
    by_cases hc : c = '\n'
    · subst hc
      by_cases hk : k < 2
      · simp [collapseNlAux, hk, nlOk, ih (k + 1)]
      · simp [collapseNlAux, hk, ih k]
    · simp [collapseNlAux, hc, nlOk, ih 0]

theorem collapseNlAux_of_nlOk :
    ∀ (l : List Char) (k : Nat), nlOk k l = true → collapseNlAux k l = l := by
  intro l
  induction l with
  | nil => intro k _; rfl
  | cons c cs ih =>
    intro k h
    by_cases hc : c = '\n'
    · subst hc
      simp only [nlOk, if_pos, Bool.and_eq_true, decide_eq_true_eq] at h
      obtain ⟨hk, hrest⟩ := h
      simp [collapseNlAux, hk, ih (k + 1) hrest]
    · simp only [nlOk, hc, ite_false, if_neg] at h
      simp [collapseNlAux, hc, ih 0 h]

theorem wsOk_collapseNlAux (p : Char → Bool) (hn : p '\n' = false) :
    ∀ (l : List Char) (k : Nat) (b : Bool), (k ≠ 0 → b = false) →
      wsOk p b l = true → wsOk p b (collapseNlAux k l) = true := by
  intro l
  induction l with
  | nil => intro k b _ _; rfl
  | cons c cs ih =>
    intro k b hkb h
    by_cases hc : c = '\n'
    · subst hc
      have hpn : p '\n' = false := hn
      simp only [wsOk, hpn, Bool.false_eq_true, if_neg, ite_false] at h
      by_cases hk : k < 2
      · have : wsOk p b ('\n' :: collapseNlAux (k + 1) cs) = true := by
          simp only [wsOk, hpn, Bool.false_eq_true, ite_false]
          exact ih (k + 1) false (fun _ => rfl) h
        simpa [collapseNlAux, hk] using this
      · have hb : b = false := hkb (by omega)
        subst hb
        simpa [collapseNlAux, hk] using ih k false (fun _ => rfl) h
    · by_cases hpc : p c = true
      · simp only [wsOk, hpc, if_pos, Bool.and_eq_true, Bool.not_eq_true', beq_iff_eq] at h
        obtain ⟨⟨hb, hsp⟩, hrest⟩ := h
        subst hb
        subst hsp
        simp [collapseNlAux, hc, wsOk, hpc, ih 0 true (by simp) hrest]
      · simp only [Bool.not_eq_true] at hpc
        simp only [wsOk, hpc, Bool.false_eq_true, ite_false] at h
        simp [collapseNlAux, hc, wsOk, hpc, ih 0 false (by simp) h]

/-! ### Trim lemmas -/

theorem headNotWs_dropWhile (l : List Char) :
    headNotWs (l.dropWhile isWsChar) = true := by
  induction l with
  | nil => rfl
  | cons c cs ih =>
    by_cases hc : isWsChar c = true
    · simpa [List.dropWhile, hc] using ih
    · simp only [Bool.not_eq_true] at hc
      simp [List.dropWhile, hc, headNotWs]

theorem dropWhile_of_headNotWs (l : List Char) (h : headNotWs l = true) :
    l.dropWhile isWsChar = l := by
  cases l with
  | nil => rfl
  | cons c cs =>
    simp only [headNotWs, Bool.not_eq_true'] at h
    simp [List.dropWhile, h]

theorem noTrailWs_dropTrailWs (l : List Char) :
    noTrailWs (dropTrailWs l) = true := by
  induction l with
  | nil => rfl
  | cons c cs ih =>
    simp only [dropTrailWs]
    cases hd : dropTrailWs cs with
    | nil =>
      by_cases hc : isWsChar c = true
      · simp [hc, noTrailWs]
      · simp only [Bool.not_eq_true] at hc
        simp [hc, noTrailWs]
    | cons d ds =>
      rw [hd] at ih
      simpa [noTrailWs] using ih

theorem dropTrailWs_of_noTrailWs (l : List Char) (h : noTrailWs l = true) :
    dropTrailWs l = l := by
  induction l with
  | nil => rfl
  | cons c cs ih =>
    cases cs with
    | nil =>
      simp only [noTrailWs, Bool.not_eq_true'] at h
      simp [dropTrailWs, h]
    | cons d ds =>
      simp only [noTrailWs] at h
      have hih : dropTrailWs (d :: ds) = d :: ds := ih h
      show (match dropTrailWs (d :: ds) with
        | [] => if isWsChar c = true then [] else [c]
        | e :: es => c :: e :: es) = c :: d :: ds
      rw [hih]

theorem headNotWs_dropTrailWs (l : List Char) (h : headNotWs l = true) :
    headNotWs (dropTrailWs l) = true := by
  cases l with
  | nil => rfl
  | cons c cs =>
    simp only [headNotWs, Bool.not_eq_true'] at h
    simp only [dropTrailWs]
    cases dropTrailWs cs with
    | nil => simp [h, headNotWs]
    | cons d ds => simp [headNotWs, h]

theorem headNotWs_jsTrimL (l : List Char) : headNotWs (jsTrimL l) = true :=
  headNotWs_dropTrailWs _ (headNotWs_dropWhile l)

theorem noTrailWs_jsTrimL (l : List Char) : noTrailWs (jsTrimL l) = true :=
  noTrailWs_dropTrailWs _

theorem jsTrimL_of_trimmed (l : List Char) (h1 : headNotWs l = true)
    (h2 : noTrailWs l = true) : jsTrimL l = l := by
  unfold jsTrimL
  rw [dropWhile_of_headNotWs l h1, dropTrailWs_of_noTrailWs l h2]

/-! ### Head and tail preservation through the collapse passes -/

theorem headNotWs_collapseRuns (p : Char → Bool)
    (hsub : ∀ c, p c = true → isWsChar c = true) (l : List Char) (b : Bool)
    (h : headNotWs l = true) : headNotWs (collapseRuns p b l) = true := by
  cases l with
  | nil => rfl
  | cons c cs =>
    simp only [headNotWs, Bool.not_eq_true'] at h
    have hpc : p c = false := by
      cases hpc : p c with
      | false => rfl
      | true => rw [hsub c hpc] at h; cases h
    simp [collapseRuns, hpc, headNotWs, h]

theorem headNotWs_collapseNlAux (l : List Char) (k : Nat)
    (h : headNotWs l = true) : headNotWs (collapseNlAux k l) = true := by
  cases l with
  | nil => rfl
  | cons c cs =>
    simp only [headNotWs, Bool.not_eq_true'] at h
    have hc : c ≠ '\n' := not_ws_not_nl h
    simp [collapseNlAux, hc, headNotWs, h]

theorem noTrailWs_collapseRuns (p : Char → Bool)
    (hsub : ∀ c, p c = true → isWsChar c = true) :
    ∀ (l : List Char) (b : Bool), noTrailWs l = true →
      noTrailWs (collapseRuns p b l) = true ∧ (l ≠ [] → collapseRuns p b l ≠ []) := by
  intro l
  induction l with
  | nil => intro b _; exact ⟨rfl, fun h => absurd rfl h⟩
  | cons c cs ih =>
    intro b h
    cases cs with
    | nil =>
      simp only [noTrailWs, Bool.not_eq_true'] at h
      have hpc : p c = false := by
        cases hpc : p c with
        | false => rfl
        | true => rw [hsub c hpc] at h; cases h
      simp [collapseRuns, hpc, noTrailWs, h]
    | cons d ds =>
      simp only [noTrailWs] at h
      obtain ⟨ih1, ih2⟩ := ih (b := true) h
      obtain ⟨ih1f, ih2f⟩ := ih (b := false) h
      have hne : (d :: ds : List Char) ≠ [] := by simp
      by_cases hpc : p c = true
      · cases b with
        | true =>
          have step : collapseRuns p true (c :: d :: ds) = collapseRuns p true (d :: ds) := by
            simp [collapseRuns, hpc]
          rw [step]
          exact ⟨ih1, fun _ => ih2 hne⟩
        | false =>
          have step : collapseRuns p false (c :: d :: ds)
              = ' ' :: collapseRuns p true (d :: ds) := by
            simp [collapseRuns, hpc]
          rw [step]
          refine ⟨?_, fun _ => by simp⟩
          cases hx : collapseRuns p true (d :: ds) with
          | nil => exact absurd hx (ih2 hne)
          | cons e es =>
            rw [hx] at ih1
            exact ih1
      · simp only [Bool.not_eq_true] at hpc
        have step : collapseRuns p b (c :: d :: ds) = c :: collapseRuns p false (d :: ds) := by
          simp [collapseRuns, hpc]
        rw [step]
        refine ⟨?_, fun _ => by simp⟩
        cases hx : collapseRuns p false (d :: ds) with
        | nil => exact absurd hx (ih2f hne)
        | cons e es =>
          rw [hx] at ih1f
          exact ih1f

theorem noTrailWs_collapseNlAux :
    ∀ (l : List Char) (k : Nat), noTrailWs l = true →
      noTrailWs (collapseNlAux k l) = true ∧ (l ≠ [] → collapseNlAux k l ≠ []) := by
  intro l
  induction l with
  | nil => intro k _; exact ⟨rfl, fun h => absurd rfl h⟩
  | cons c cs ih =>
    intro k h
    cases cs with
    | nil =>
      simp only [noTrailWs, Bool.not_eq_true'] at h
      have hc : c ≠ '\n' := not_ws_not_nl h
      simp [collapseNlAux, hc, noTrailWs, h]
    | cons d ds =>
      simp only [noTrailWs] at h
      have hne : (d :: ds : List Char) ≠ [] := by simp
      by_cases hc : c = '\n'
      · subst hc
        by_cases hk : k < 2
        · obtain ⟨ih1, ih2⟩ := ih (k := k + 1) h
          have step : collapseNlAux k ('\n' :: d :: ds)
              = '\n' :: collapseNlAux (k + 1) (d :: ds) := by
            simp [collapseNlAux, hk]
          rw [step]
          refine ⟨?_, fun _ => by simp⟩
          cases hx : collapseNlAux (k + 1) (d :: ds) with
          | nil => exact absurd hx (ih2 hne)
          | cons e es =>
            rw [hx] at ih1
            exact ih1
        · obtain ⟨ih1, ih2⟩ := ih (k := k) h
          have step : collapseNlAux k ('\n' :: d :: ds) = collapseNlAux k (d :: ds) := by
            simp [collapseNlAux, hk]
          rw [step]
          exact ⟨ih1, fun _ => ih2 hne⟩
      · obtain ⟨ih1, ih2⟩ := ih (k := 0) h
        have step : collapseNlAux k (c :: d :: ds) = c :: collapseNlAux 0 (d :: ds) := by
          simp [collapseNlAux, hc]
        rw [step]
        refine ⟨?_, fun _ => by simp⟩
        cases hx : collapseNlAux 0 (d :: ds) with
        | nil => exact absurd hx (ih2 hne)
        | cons e es =>
          rw [hx] at ih1
          exact ih1

/-! ### The sanitizer pipelines are projections onto their normal forms -/

theorem isNonNlWs_space : isNonNlWs ' ' = true := by decide

theorem isWsChar_space : isWsChar ' ' = true := by decide

theorem headNotWs_pipeBg (l : List Char) : headNotWs (pipeBg l) = true :=
  headNotWs_collapseNlAux _ _
    (headNotWs_collapseRuns _ (fun _ => isNonNlWs_ws) _ _ (headNotWs_jsTrimL l))

theorem noTrailWs_pipeBg (l : List Char) : noTrailWs (pipeBg l) = true :=
  (noTrailWs_collapseNlAux _ _
    ((noTrailWs_collapseRuns _ (fun _ => isNonNlWs_ws) _ _ (noTrailWs_jsTrimL l)).1)).1

theorem wsOk_pipeBg (l : List Char) : wsOk isNonNlWs false (pipeBg l) = true :=
  wsOk_collapseNlAux _ isNonNlWs_nl _ _ _ (fun h => absurd rfl h)
    (wsOk_collapseRuns _ isNonNlWs_space _ _)

theorem nlOk_pipeBg (l : List Char) : nlOk 0 (pipeBg l) = true :=
  nlOk_collapseNlAux _ _

theorem isNormalBg_pipeBg (l : List Char) : isNormalBg (pipeBg l) = true := by
  simp [isNormalBg, headNotWs_pipeBg, noTrailWs_pipeBg, wsOk_pipeBg, nlOk_pipeBg]

theorem pipeBg_of_isNormalBg (l : List Char) (h : isNormalBg l = true) : pipeBg l = l := by
  simp only [isNormalBg, Bool.and_eq_true] at h
  obtain ⟨⟨⟨h1, h2⟩, h3⟩, h4⟩ := h
  unfold pipeBg
  rw [jsTrimL_of_trimmed l h1 h2, collapseRuns_of_wsOk _ _ _ h3, collapseNlAux_of_nlOk _ _ h4]

theorem pipeBg_fixed (l : List Char) : pipeBg (pipeBg l) = pipeBg l :=
  pipeBg_of_isNormalBg _ (isNormalBg_pipeBg l)

/-! The utilities pipeline removes every newline in its whitespace pass, so
its newline pass is the identity. -/

theorem hasNl_collapseRuns_isWsChar :
    ∀ (l : List Char) (b : Bool), hasNl (collapseRuns isWsChar b l) = false := by
  intro l
  induction l with
  | nil => intro b; rfl
  | cons c cs ih =>
    intro b
    by_cases hc : isWsChar c = true
    · cases b with
      | true => simpa [collapseRuns, hc] using ih true
      | false => simp [collapseRuns, hc, hasNl, ih true]
    · simp only [Bool.not_eq_true] at hc
      have hcn : c ≠ '\n' := not_ws_not_nl hc
      simp [collapseRuns, hc, hasNl, hcn, ih false]

theorem collapseNlAux_of_no_nl :
    ∀ (l : List Char) (k : Nat), hasNl l = false → collapseNlAux k l = l := by
  intro l
  induction l with
  | nil => intro k _; rfl
  | cons c cs ih =>
    intro k h
    simp only [hasNl, Bool.or_eq_false_iff, beq_eq_false_iff_ne, ne_eq] at h
    obtain ⟨hc, hrest⟩ := h
    simp [collapseNlAux, hc, ih 0 hrest]

theorem pipeUtils_eq_collapse (l : List Char) :
    pipeUtils l = collapseRuns isWsChar false (jsTrimL l) := by
  unfold pipeUtils
  exact collapseNlAux_of_no_nl _ 0 (hasNl_collapseRuns_isWsChar _ false)

theorem pipeUtils_fixed (l : List Char) : pipeUtils (pipeUtils l) = pipeUtils l := by
  have h1 : headNotWs (pipeUtils l) = true := by
    rw [pipeUtils_eq_collapse]
    exact headNotWs_collapseRuns _ (fun _ h => h) _ _ (headNotWs_jsTrimL l)
  have h2 : noTrailWs (pipeUtils l) = true := by
    rw [pipeUtils_eq_collapse]
    exact (noTrailWs_collapseRuns _ (fun _ h => h) _ _ (noTrailWs_jsTrimL l)).1
  have h3 : wsOk isWsChar false (pipeUtils l) = true := by
    rw [pipeUtils_eq_collapse]
    exact wsOk_collapseRuns _ isWsChar_space _ _
  conv_lhs => rw [pipeUtils_eq_collapse (pipeUtils l)]
  rw [jsTrimL_of_trimmed _ h1 h2, collapseRuns_of_wsOk _ _ _ h3]

/-! ### String-level idempotence -/

theorem string_mk_data (l : List Char) : (⟨l⟩ : String).data = l := rfl

theorem string_mk_eq_empty_iff (l : List Char) : (⟨l⟩ : String) = "" ↔ l = [] := by
  constructor
  · intro h
    have := congrArg String.data h
    simpa using this
  · intro h
    subst h
    rfl

theorem sanitizeStrBg_idem (s : String) : sanitizeStrBg (sanitizeStrBg s) = sanitizeStrBg s := by
  by_cases hs : s = ""
  · subst hs
    rfl
  · have h1 : sanitizeStrBg s = ⟨pipeBg s.data⟩ := by
      simp [sanitizeStrBg, hs]
    by_cases h2 : (⟨pipeBg s.data⟩ : String) = ""
    · rw [h1, h2]
      rfl
    · rw [h1]
      rw [sanitizeStrBg, if_neg h2, string_mk_data, pipeBg_fixed]

theorem sanitizeStrUtils_idem (s : String) :
    sanitizeStrUtils (sanitizeStrUtils s) = sanitizeStrUtils s := by
  by_cases hs : s = ""
  · subst hs
    rfl
  · have h1 : sanitizeStrUtils s = ⟨pipeUtils s.data⟩ := by
      simp [sanitizeStrUtils, hs]
    by_cases h2 : (⟨pipeUtils s.data⟩ : String) = ""
    · rw [h1, h2]
      rfl
    · rw [h1]
      rw [sanitizeStrUtils, if_neg h2, string_mk_data, pipeUtils_fixed]

theorem isNormalBg_sanitizeStrBg (s : String) :
    isNormalBg (sanitizeStrBg s).data = true := by
  by_cases hs : s = ""
  · subst hs
    rfl
  · simp only [sanitizeStrBg, hs, ite_false, if_neg, string_mk_data]
    exact isNormalBg_pipeBg s.data

theorem sanitizeStrBg_of_isNormalBg (s : String) (h : isNormalBg s.data = true) :
    sanitizeStrBg s = s := by
  by_cases hs : s = ""
  · subst hs
    rfl
  · simp only [sanitizeStrBg, hs, ite_false, if_neg]
    rw [pipeBg_of_isNormalBg _ h]

/-! ### Helper lemmas for the validators -/

theorem jsTrimL_nil : jsTrimL [] = [] := rfl

theorem validateText_short (s : String) (hne : s ≠ "")
    (h : (jsTrimL s.data).length < 10) :
    validateText (some s)
      = ⟨false, some "Selected text is too short. Please select at least 10 characters."⟩ := by
  simp [validateText, hne, h]

theorem validateText_long (s : String) (h : 10000 < (jsTrimL s.data).length) :
    validateText (some s)
      = ⟨false, some "Selected text is too long. Please select less than 10,000 characters."⟩ := by
  have hne : s ≠ "" := by
    intro he
    subst he
    exact absurd h (by decide)
  have h10 : ¬((jsTrimL s.data).length < 10) := by omega
  simp [validateText, hne, h10, h]

theorem validateText_ok (s : String) (h1 : 10 ≤ (jsTrimL s.data).length)
    (h2 : (jsTrimL s.data).length ≤ 10000) :
    validateText (some s) = ⟨true, none⟩ := by
  have hne : s ≠ "" := by
    intro he
    subst he
    exact absurd h1 (by decide)
  have h10 : ¬((jsTrimL s.data).length < 10) := by omega
  have h10000 : ¬((jsTrimL s.data).length > 10000) := by omega
  simp [validateText, hne, h10, h10000]

theorem validateText_valid_iff (t : Option String) :
    (validateText t).valid = true ↔
      ∃ s, t = some s ∧ 10 ≤ (jsTrimL s.data).length ∧ (jsTrimL s.data).length ≤ 10000 := by
  cases t with
  | none => simp [validateText]
  | some s =>
    constructor
    · intro h
      by_cases hne : s = ""
      · subst hne
        simp [validateText] at h
      · by_cases h10 : (jsTrimL s.data).length < 10
        · rw [validateText_short s hne h10] at h
          cases h
        · by_cases h10000 : (jsTrimL s.data).length > 10000
          · rw [validateText_long s h10000] at h
            cases h
          · exact ⟨s, rfl, by omega, by omega⟩
    · rintro ⟨s', heq, hs1, hs2⟩
      injection heq with heq'
      subst heq'
      rw [validateText_ok _ hs1 hs2]

/-- Claim C7: `validateText` is invalid exactly for an absent or non-string
input (no-text message; the empty string is falsy in JS and also yields the
no-text message), a trimmed length below 10 (too-short message), or a
trimmed length above 10000 (too-long message); every string whose trimmed
length lies in [10, 10000] is valid. -/
theorem claim7_validateText :
    validateText none = ⟨false, some "No text provided"⟩
  ∧ validateText (some "") = ⟨false, some "No text provided"⟩
  ∧ (∀ s : String, s ≠ "" → (jsTrimL s.data).length < 10 →
      validateText (some s)
        = ⟨false, some "Selected text is too short. Please select at least 10 characters."⟩)
  ∧ (∀ s : String, 10000 < (jsTrimL s.data).length →
      validateText (some s)
        = ⟨false, some "Selected text is too long. Please select less than 10,000 characters."⟩)
  ∧ (∀ s : String, 10 ≤ (jsTrimL s.data).length → (jsTrimL s.data).length ≤ 10000 →
      validateText (some s) = ⟨true, none⟩)
  ∧ (∀ t : Option String, (validateText t).valid = true ↔
      ∃ s, t = some s ∧ 10 ≤ (jsTrimL s.data).length ∧ (jsTrimL s.data).length ≤ 10000) :=
  ⟨rfl, rfl, validateText_short, validateText_long, validateText_ok, validateText_valid_iff⟩

/-- Concrete instance of claim C7 at a too-short input: the guarded parts
of `claim7_validateText` applied to `"Hi"`. -/
theorem claim7_witness :
    validateText (some "Hi")
      = ⟨false, some "Selected text is too short. Please select at least 10 characters."⟩ :=
  claim7_validateText.2.2.1 "Hi" (by decide) (by decide)

theorem validateApiKey_iff (k : Option String) :
    validateApiKey k = true ↔
      ∃ s, k = some s ∧ jsStartsWith s "sk-" = true ∧ 20 < s.data.length := by
  cases k with
  | none => simp [validateApiKey]
  | some s =>
    by_cases hs : s = ""
    · subst hs
      simp only [validateApiKey, if_pos rfl]
      constructor
      · intro h
        cases h
      · rintro ⟨s', heq, h1, _⟩
        injection heq with heq'
        subst heq'
        exact absurd h1 (by decide)
    · simp only [validateApiKey, hs, ite_false, if_neg, Bool.and_eq_true, decide_eq_true_eq]
      constructor
      · rintro ⟨h1, h2⟩
        exact ⟨s, rfl, h1, h2⟩
      · rintro ⟨s', heq, h1, h2⟩
        injection heq with heq'
        subst heq'
        exact ⟨h1, h2⟩

/-- Claim C8: `validateApiKey` accepts exactly the strings that start with
`"sk-"` and have length strictly greater than 20; in particular `"sk-"`
plus 18 characters (length 21) is accepted while a `"pk-"` prefix,
`"sk-short"`, `""` and `null` are rejected. -/
theorem claim8_validateApiKey :
    (∀ k : Option String, validateApiKey k = true ↔
      ∃ s, k = some s ∧ jsStartsWith s "sk-" = true ∧ 20 < s.data.length)
  ∧ validateApiKey (some "sk-123456789012345678") = true
  ∧ "sk-123456789012345678".data.length = 21
  ∧ validateApiKey (some "pk-123456789012345678") = false
  ∧ validateApiKey (some "sk-short") = false
  ∧ validateApiKey (some "") = false
  ∧ validateApiKey none = false :=
  ⟨validateApiKey_iff, by decide, by decide, by decide, by decide, by decide, rfl⟩

/-- Claim C3: the background worker's `sanitizeText` maps falsy input to
`""`; otherwise it trims, collapses runs of non-newline whitespace to one
space and runs of 3+ newlines to exactly 2 — its output is always in that
normal form, it is the identity on the normal form, and the two spec
examples hold. -/
theorem claim3_sanitize :
    sanitizeTextBg none = ""
  ∧ sanitizeTextBg (some "") = ""
  ∧ sanitizeStrBg "Hello    world" = "Hello world"
  ∧ sanitizeStrBg "Line 1\n\n\n\nLine 2" = "Line 1\n\nLine 2"
  ∧ (∀ s : String, isNormalBg (sanitizeStrBg s).data = true)
  ∧ (∀ s : String, isNormalBg s.data = true → sanitizeStrBg s = s) :=
  ⟨rfl, rfl, by decide, by decide, isNormalBg_sanitizeStrBg, sanitizeStrBg_of_isNormalBg⟩

/-- Concrete instance of claim C3's guarded conjunct: `claim3_sanitize`
applied at the already-normal string `"a b"`. -/
theorem claim3_witness : sanitizeStrBg "a b" = "a b" :=
  claim3_sanitize.2.2.2.2.2 "a b" (by decide)

/-- Claim C9: both `sanitizeText` implementations are idempotent. -/
theorem claim9_sanitize_idempotent :
    (∀ s : String, sanitizeStrBg (sanitizeStrBg s) = sanitizeStrBg s)
  ∧ (∀ s : String, sanitizeStrUtils (sanitizeStrUtils s) = sanitizeStrUtils s) :=
  ⟨sanitizeStrBg_idem, sanitizeStrUtils_idem⟩

/-- Claim C10: the two `sanitizeText` definitions disagree on the repo's
own test input `"Line 1\n\n\n\nLine 2"`: the background version keeps the
paragraph break while the utilities version flattens it to a space (the
repo's test suite asserts the background behaviour for this input). -/
theorem claim10_sanitizers_diverge :
    sanitizeStrBg "Line 1\n\n\n\nLine 2" = "Line 1\n\nLine 2"
  ∧ sanitizeStrUtils "Line 1\n\n\n\nLine 2" = "Line 1 Line 2"
  ∧ sanitizeStrBg "Line 1\n\n\n\nLine 2" ≠ sanitizeStrUtils "Line 1\n\n\n\nLine 2" :=
  ⟨by decide, by decide, by decide⟩

/-- Claim C4: `formatErrorMessage` returns plain strings unchanged, maps an
`Error` whose message contains `"401"` / `"429"` / `"500"` (in that
priority order) to the fixed credential / rate-limit / service messages,
and otherwise returns the error's own message, with the generic fallback
for an empty message. -/
theorem claim4_classifyError :
    (∀ s : String, formatErrorMessage (.str s) = s)
  ∧ (∀ m : String, strContains m "401" = true →
      formatErrorMessage (.err m) = "Invalid API key. Please check your OpenAI API key.")
  ∧ (∀ m : String, strContains m "401" = false → strContains m "429" = true →
      formatErrorMessage (.err m) = "Rate limit exceeded. Please try again later.")
  ∧ (∀ m : String, strContains m "401" = false → strContains m "429" = false →
      strContains m "500" = true →
      formatErrorMessage (.err m) = "OpenAI service error. Please try again later.")
  ∧ (∀ m : String, strContains m "401" = false → strContains m "429" = false →
      strContains m "500" = false → m ≠ "" → formatErrorMessage (.err m) = m)
  ∧ (∀ m : String, strContains m "401" = false → strContains m "429" = false →
      strContains m "500" = false → m = "" →
      formatErrorMessage (.err m)
        = "Failed to generate summary. Please check your API key and try again.")
  ∧ formatErrorMessage .other
      = "Failed to generate summary. Please check your API key and try again."
  ∧ formatErrorMessage (.err "Something went wrong") = "Something went wrong" := by
  refine ⟨fun s => rfl, ?_, ?_, ?_, ?_, ?_, rfl, by decide⟩
  · intro m h1
    simp [formatErrorMessage, h1]
  · intro m h1 h2
    simp [formatErrorMessage, h1, h2]
  · intro m h1 h2 h3
    simp [formatErrorMessage, h1, h2, h3]
  · intro m h1 h2 h3 h4
    simp [formatErrorMessage, h1, h2, h3, h4]
  · intro m h1 h2 h3 h4
    subst h4
    decide

/-- Concrete instance of claim C4's guarded conjunct: `claim4_classifyError`
applied at a message containing `"429"`. -/
theorem claim4_witness :
    formatErrorMessage (.err "Request failed with status 429")
      = "Rate limit exceeded. Please try again later." :=
  claim4_classifyError.2.2.1 "Request failed with status 429" (by decide) (by decide)

/-! ### Helper lemmas for the response parser -/

theorem parseApiResponse_error_iff (r : Option ApiResponse) :
    parseApiResponse r = Except.error "Invalid response from API" ↔
      (contentOf r = none ∨ contentOf r = some "") := by
  cases r with
  | none => simp [parseApiResponse, contentOf]
  | some resp =>
    obtain ⟨choices⟩ := resp
    cases choices with
    | none => simp [parseApiResponse, contentOf]
    | some cl =>
      cases cl with
      | nil => simp [parseApiResponse, contentOf]
      | cons c rest =>
        obtain ⟨msg⟩ := c
        cases msg with
        | none => simp [parseApiResponse, contentOf]
        | some m =>
          obtain ⟨content⟩ := m
          cases content with
          | none => simp [parseApiResponse, contentOf]
          | some s' =>
            by_cases hs : s' = ""
            · subst hs
              simp [parseApiResponse, contentOf]
            · simp [parseApiResponse, contentOf, hs]

theorem parseApiResponse_ok_iff (r : Option ApiResponse) (s : String) :
    parseApiResponse r = Except.ok s ↔
      ∃ c, contentOf r = some c ∧ c ≠ "" ∧ s = jsTrimStr c := by
  cases r with
  | none => simp [parseApiResponse, contentOf]
  | some resp =>
    obtain ⟨choices⟩ := resp
    cases choices with
    | none => simp [parseApiResponse, contentOf]
    | some cl =>
      cases cl with
      | nil => simp [parseApiResponse, contentOf]
      | cons c rest =>
        obtain ⟨msg⟩ := c
        cases msg with
        | none => simp [parseApiResponse, contentOf]
        | some m =>
          obtain ⟨content⟩ := m
          cases content with
          | none => simp [parseApiResponse, contentOf]
          | some s' =>
            by_cases hs : s' = ""
            · subst hs
              simp [parseApiResponse, contentOf]
            · simp only [parseApiResponse, contentOf, hs, ite_false, if_neg]
              constructor
              · intro h
                injection h with h'
                exact ⟨s', rfl, hs, h'.symm⟩
              · rintro ⟨c', heq, _, hs'⟩
                injection heq with heq'
                subst heq'
                rw [hs']

/-- Claim C5: `parseApiResponse` fails with the invalid-response error
exactly when `choices[0].message.content` is missing or the empty string,
and succeeds exactly with the trimmed content otherwise. -/
theorem claim5_parseSummary :
    ∀ r : Option ApiResponse,
      (parseApiResponse r = Except.error "Invalid response from API" ↔
        (contentOf r = none ∨ contentOf r = some ""))
      ∧ (∀ s : String, parseApiResponse r = Except.ok s ↔
          ∃ c, contentOf r = some c ∧ c ≠ "" ∧ s = jsTrimStr c) :=
  fun r => ⟨parseApiResponse_error_iff r, fun s => parseApiResponse_ok_iff r s⟩

/-! ### Helper lemmas for the orchestrator -/

theorem handleSummarization_keyRejected (text apiKey : Option String)
    (net : String → NetOutcome) (st : Storage) (now : Nat)
    (h : apiKeyRejected apiKey = true) :
    handleSummarization text apiKey net st now = (.error "Invalid API key", st, 0) := by
  simp [handleSummarization, h]

theorem handleSummarization_textInvalid (text apiKey : Option String)
    (net : String → NetOutcome) (st : Storage) (now : Nat)
    (hk : apiKeyRejected apiKey = false) (hv : (validateText text).valid = false) :
    handleSummarization text apiKey net st now
      = (.error ((validateText text).error.getD ""), st, 0) := by
  simp [handleSummarization, hk, hv]

theorem handleSummarization_ok (text apiKey : Option String)
    (net : String → NetOutcome) (st : Storage) (now : Nat) (s : String)
    (h : (handleSummarization text apiKey net st now).1 = Except.ok s) :
    handleSummarization text apiKey net st now = (.ok s, ⟨some s, some now⟩, 1) := by
  by_cases hk : apiKeyRejected apiKey = true
  · rw [handleSummarization_keyRejected text apiKey net st now hk] at h ⊢
    cases h
  · have hk' : apiKeyRejected apiKey = false := by
      cases hx : apiKeyRejected apiKey with
      | false => rfl
      | true => exact absurd hx hk
    by_cases hv : (validateText text).valid = false
    · rw [handleSummarization_textInvalid text apiKey net st now hk' hv] at h ⊢
      cases h
    · have hstep : handleSummarization text apiKey net st now
          = match callOpenAI (net (createSummaryPrompt (sanitizeTextBg text))) with
            | .error e => (.error e, st, 1)
            | .ok summary => (.ok summary, ⟨some summary, some now⟩, 1) := by
        simp [handleSummarization, hk', hv]
      rw [hstep] at h ⊢
      cases hc : callOpenAI (net (createSummaryPrompt (sanitizeTextBg text))) with
      | error e =>
        rw [hc] at h
        cases h
      | ok summary =>
        rw [hc] at h
        injection h with h'
        subst h'
        rfl

/-- Claim C1: whenever the orchestrator's credential check or the text
validation fails, `handleSummarization` fails with that validation error,
performs no network call and leaves the stored `last_summary` and
`last_summary_time` unchanged; whenever it succeeds with a summary, it has
performed one network call and persisted exactly that summary with the
current timestamp. -/
theorem claim1_orchestrator :
    (∀ (text apiKey : Option String) (net : String → NetOutcome) (st : Storage) (now : Nat),
      apiKeyRejected apiKey = true ∨ (validateText text).valid = false →
      handleSummarization text apiKey net st now
        = (.error (if apiKeyRejected apiKey = true then "Invalid API key"
            else (validateText text).error.getD ""), st, 0))
  ∧ (∀ (text apiKey : Option String) (net : String → NetOutcome) (st : Storage) (now : Nat)
      (s : String), (handleSummarization text apiKey net st now).1 = Except.ok s →
      handleSummarization text apiKey net st now = (.ok s, ⟨some s, some now⟩, 1)) := by
  constructor
  · intro text apiKey net st now h
    by_cases hk : apiKeyRejected apiKey = true
    · rw [if_pos hk]
      exact handleSummarization_keyRejected text apiKey net st now hk
    · have hk' : apiKeyRejected apiKey = false := by
        cases hx : apiKeyRejected apiKey with
        | false => rfl
        | true => exact absurd hx hk
      have hv : (validateText text).valid = false := by
        rcases h with h | h
        · exact absurd h hk
        · exact h
      rw [if_neg hk]
      exact handleSummarization_textInvalid text apiKey net st now hk' hv
  · exact handleSummarization_ok

/-- Concrete instance of claim C1's validation branch: `claim1_orchestrator`
applied at a missing credential. -/
theorem claim1_witness :
    handleSummarization none none (fun _ => NetOutcome.fetchFailed) ⟨none, none⟩ 0
      = (.error "Invalid API key", ⟨none, none⟩, 0) :=
  claim1_orchestrator.1 none none (fun _ => NetOutcome.fetchFailed) ⟨none, none⟩ 0
    (Or.inl rfl)

/-- Claim C2 fails on the code: `"sk-short"` is rejected by
`validateApiKey` (length 8 ≤ 20), yet `handleSummarization` does not
reject it — with valid text it performs the network call and succeeds. -/
theorem claim2_counterexample :
    validateApiKey (some "sk-short") = false
  ∧ handleSummarization (some "This is a valid text that is long enough to be processed.")
      (some "sk-short")
      (fun _ => NetOutcome.ok (some ⟨some [⟨some ⟨some "A short summary."⟩⟩]⟩))
      ⟨none, none⟩ 7
    = (.ok "A short summary.", ⟨some "A short summary.", some 7⟩, 1) :=
  ⟨rfl, rfl⟩

/-- Claim C2 amended: the orchestrator's credential guard rejects exactly a
missing or empty token or one not starting with `"sk-"` (with the fixed
invalid-credential error, before text validation and before any network
call); the guard is weaker than `validateCredential` — it accepts every
token `validateApiKey` accepts, but also short `"sk-"` tokens. -/
theorem claim2_amended :
    (∀ (text apiKey : Option String) (net : String → NetOutcome) (st : Storage) (now : Nat),
      apiKeyRejected apiKey = true →
      handleSummarization text apiKey net st now = (.error "Invalid API key", st, 0))
  ∧ (∀ s : String, apiKeyRejected (some s) = false ↔ jsStartsWith s "sk-" = true)
  ∧ apiKeyRejected none = true
  ∧ (∀ k : Option String, validateApiKey k = true → apiKeyRejected k = false) := by
  refine ⟨handleSummarization_keyRejected, ?_, rfl, ?_⟩
  · intro s
    by_cases hs : s = ""
    · subst hs
      constructor
      · intro h
        cases h
      · intro h
        exact absurd h (by decide)
    · simp [apiKeyRejected, hs]
  · intro k h
    cases k with
    | none => cases h
    | some s =>
      by_cases hs : s = ""
      · subst hs
        simp [validateApiKey] at h
      · simp only [validateApiKey, hs, ite_false, if_neg, Bool.and_eq_true] at h
        simp [apiKeyRejected, hs, h.1]

/-- Concrete instance of claim C2's amended guard: `claim2_amended` applied
at the empty-string credential. -/
theorem claim2_witness :
    handleSummarization (some "This is a valid text that is long enough to be processed.")
      (some "") (fun _ => NetOutcome.fetchFailed) ⟨none, none⟩ 0
      = (.error "Invalid API key", ⟨none, none⟩, 0) :=
  claim2_amended.1 (some "This is a valid text that is long enough to be processed.")
    (some "") (fun _ => NetOutcome.fetchFailed) ⟨none, none⟩ 0 rfl

/-- Claim C6 fails on the code: a response whose content is all whitespace
(`"   "`) is accepted by `parseApiResponse`, which returns the empty
string; a successful run then persists `""` as `last_summary`, violating
the non-emptiness invariant. -/
theorem claim6_counterexample :
    parseApiResponse (some ⟨some [⟨some ⟨some "   "⟩⟩]⟩) = Except.ok ""
  ∧ handleSummarization (some "This is a valid text that is long enough to be processed.")
      (some "sk-1234567890abcdefghijklmnop")
      (fun _ => NetOutcome.ok (some ⟨some [⟨some ⟨some "   "⟩⟩]⟩))
      ⟨none, none⟩ 3
    = (.ok "", ⟨some "", some 3⟩, 1) :=
  ⟨rfl, rfl⟩

/-- Claim C6 amended: an accepted summary is the trimmed
`choices[0].message.content`, which must itself be non-empty; the summary
is non-empty whenever the content does not consist solely of whitespace
(a whitespace-only content is accepted and yields `""`), and a successful
orchestration persists exactly the returned summary. -/
theorem claim6_amended :
    (∀ (r : Option ApiResponse) (s : String), parseApiResponse r = Except.ok s →
      ∃ c, contentOf r = some c ∧ c ≠ "" ∧ s = jsTrimStr c)
  ∧ (∀ (r : Option ApiResponse) (s c : String), parseApiResponse r = Except.ok s →
      contentOf r = some c → jsTrimStr c ≠ "" → s ≠ "")
  ∧ (∀ (text apiKey : Option String) (net : String → NetOutcome) (st : Storage)
      (now : Nat) (s : String),
      (handleSummarization text apiKey net st now).1 = Except.ok s →
      (handleSummarization text apiKey net st now).2.1.last_summary = some s) := by
  refine ⟨?_, ?_, ?_⟩
  · intro r s h
    exact (parseApiResponse_ok_iff r s).1 h
  · intro r s c h hc hne
    obtain ⟨c', hc', _, hs⟩ := (parseApiResponse_ok_iff r s).1 h
    rw [hc] at hc'
    injection hc' with hc''
    subst hc''
    rw [hs]
    exact hne
  · intro text apiKey net st now s h
    rw [handleSummarization_ok text apiKey net st now s h]

/-- Concrete instance of claim C6's amended statement: `claim6_amended`
applied at a response whose content `" A summary. "` trims to a non-empty
string. -/
theorem claim6_witness : ("A summary." : String) ≠ "" :=
  claim6_amended.2.1 (some ⟨some [⟨some ⟨some " A summary. "⟩⟩]⟩)
    "A summary." " A summary. " rfl rfl (by decide)

end Summariser
